import Mathlib

/-!
Verification of the stock-analysis repository's simulation core.

The repository's numeric code runs on Python floats; here the arithmetic is
embedded exactly over the rationals `ℚ`, so every algebraic identity of the
source is stated exactly rather than up to rounding.  Pandas `NaN` entries
(undefined indicator values, undefined returns) are embedded as `Option.none`,
and the pandas convention that any comparison with `NaN` is false is made
explicit in the signal definitions.
-/

namespace StockAnalysis

/-! ## testr.py: the dashboard simulator -/

/-- One bar of `simulate_trading` from testr.py.  `position = some 2` is the
code's buy condition, `some (-2)` its sell condition; any other value leaves
the ledger untouched.  State is `(cash, stock)`. -/
def tradeStep (price : ℚ) (position : Option Int) (st : ℚ × ℚ) : ℚ × ℚ :=
  if position = some 2 then (0, st.1 / price)
  else if position = some (-2) then (st.2 * price, 0)
  else st

/-- The `(cash, stock)` ledger of testr.py's `simulate_trading` before bar `i`,
i.e. after the loop has processed bars `0, …, i-1`.  The loop starts with all
cash (`cash = initial_investment`, `stock = 0`). -/
def tradeStates (prices : List ℚ) (positions : ℕ → Option Int) (init : ℚ) :
    ℕ → ℚ × ℚ
  | 0 => (init, 0)
  | i + 1 => tradeStep (prices.getD i 0) (positions i)
      (tradeStates prices positions init i)

/-- The portfolio value testr.py records at bar `i`:
`cash + stock * price` with the ledger as it stands after bar `i`'s branch. -/
def tradeValue (prices : List ℚ) (positions : ℕ → Option Int) (init : ℚ)
    (i : ℕ) : ℚ :=
  (tradeStates prices positions init (i + 1)).1 +
    (tradeStates prices positions init (i + 1)).2 * prices.getD i 0

/-- testr.py's `simulate_trading` loop, as the source writes it: a single pass
over the bars accumulating `(cash, stock, portfolio_values)`. -/
def simulate_trading (prices : List ℚ) (positions : ℕ → Option Int)
    (init : ℚ) : ℚ × ℚ × List ℚ :=
  (List.range prices.length).foldl
    (fun acc i =>
      let st := tradeStep (prices.getD i 0) (positions i) (acc.1, acc.2.1)
      (st.1, st.2, acc.2.2 ++ [st.1 + st.2 * prices.getD i 0]))
    (init, 0, [])

/-- `rolling(window=w).mean()` of testr.py's `get_stock_data`: defined at `i`
once a full window fits (`i ≥ w - 1`) and the row exists, `none` (NaN)
otherwise. -/
def sma (prices : List ℚ) (w : ℕ) (i : ℕ) : Option ℚ :=
  if w ≤ i + 1 ∧ i < prices.length then
    some ((((List.range w).map (fun j => prices.getD (i - j) 0)).sum) / w)
  else none

/-- One cell of `np.where(SMA20 > SMA50, 1, -1)` in testr.py line 17: a NaN on
either side makes the comparison false, hence `-1`. -/
def npWhereGtSignal (f s : Option ℚ) : Int :=
  match f, s with
  | some a, some b => if b < a then 1 else -1
  | _, _ => -1

/-- The `Signal` column of testr.py's `get_stock_data`: `0` on the first 20
rows, then `np.where(SMA20 > SMA50, 1, -1)`. -/
def testrSignal (prices : List ℚ) (i : ℕ) : Int :=
  if i < 20 then 0
  else npWhereGtSignal (sma prices 20 i) (sma prices 50 i)

/-- The `Position` column, `Signal.diff()`: NaN (`none`) at row 0, otherwise
the difference of consecutive signals. -/
def testrPosition (prices : List ℚ) (i : ℕ) : Option Int :=
  if i = 0 then none
  else some (testrSignal prices i - testrSignal prices (i - 1))

/-! ## letsSee.py: `moving_average_crossover_strategy` -/

/-- One row of the signal assignment in letsSee.py lines 214-216:
`Signal = 0`, then `Signal[MA_20 > MA_50] = 1`, then `Signal[MA_20 <= MA_50] = -1`.
A NaN on either side leaves both masks false, so the initial `0` survives;
otherwise the row is strictly binary, with equality falling into the `<=`
mask, i.e. `-1`. -/
def crossSignal (f s : Option ℚ) : Int :=
  match f, s with
  | some a, some b => if b < a then 1 else -1
  | _, _ => 0

/-- The whole `Signal` column produced from two aligned indicator columns. -/
def crossSignals (fast slow : List (Option ℚ)) : List Int :=
  List.zipWith crossSignal fast slow

/-- One bar of the trading loop in letsSee.py lines 226-242.  A Buy signal
spends 10% of the current cash at this bar's price (on every bar carrying the
signal); a Sell signal liquidates everything, but only when shares are held.
State is `(cash, stock_holding)`. -/
def maStep (price : ℚ) (signal : Int) (st : ℚ × ℚ) : ℚ × ℚ :=
  if signal = 1 then
    (st.1 - st.1 * (1 / 10), st.2 + st.1 * (1 / 10) / price)
  else if signal = -1 ∧ 0 < st.2 then (st.1 + st.2 * price, 0)
  else st

/-- The `(cash, stock_holding)` state of letsSee.py's loop before bar `i`. -/
def maStates (prices : List ℚ) (signals : ℕ → Int) (init : ℚ) : ℕ → ℚ × ℚ
  | 0 => (init, 0)
  | i + 1 => maStep (prices.getD i 0) (signals i)
      (maStates prices signals init i)

/-- The `portfolio_value` letsSee.py appends at bar `i`:
`cash + stock_holding * price`. -/
def maValue (prices : List ℚ) (signals : ℕ → Int) (init : ℚ) (i : ℕ) : ℚ :=
  (maStates prices signals init (i + 1)).1 +
    (maStates prices signals init (i + 1)).2 * prices.getD i 0

/-- `portfolio_values[-1]`: the value recorded at the last bar. -/
def finalPortfolioValue (prices : List ℚ) (signals : ℕ → Int) (init : ℚ) : ℚ :=
  maValue prices signals init (prices.length - 1)

/-- `Close.pct_change()` at row `i` (letsSee.py line 349): NaN at row 0 and
past the end, `(p_i - p_{i-1}) / p_{i-1}` elsewhere. -/
def dailyReturn (prices : List ℚ) (i : ℕ) : Option ℚ :=
  if 1 ≤ i ∧ i < prices.length then
    some ((prices.getD i 0 - prices.getD (i - 1) 0) / prices.getD (i - 1) 0)
  else none

/-- Count of rows at which `Daily_Return` is defined (non-NaN). -/
def definedDailyReturns (prices : List ℚ) : ℕ :=
  ((List.range prices.length).filter
    (fun i => (dailyReturn prices i).isSome)).length

/-- `Signal.shift(1) * Daily_Return` at row `i` (letsSee.py line 350): NaN at
row 0 (the shifted signal is NaN there) and wherever the daily return is
NaN. -/
def strategyReturn (prices : List ℚ) (signals : ℕ → Int) (i : ℕ) : Option ℚ :=
  if i = 0 then none
  else (dailyReturn prices i).map (fun r => (signals (i - 1) : ℚ) * r)

/-- Row `i` of the `valid_trades` mask (letsSee.py line 353):
`Strategy_Return.notna() & (Signal.shift(1) != 0)`. -/
def validTrade (prices : List ℚ) (signals : ℕ → Int) (i : ℕ) : Bool :=
  (strategyReturn prices signals i).isSome && decide (signals (i - 1) ≠ 0)

/-- `total_trades = valid_trades.sum()`. -/
def totalTrades (prices : List ℚ) (signals : ℕ → Int) : ℕ :=
  ((List.range prices.length).filter (fun i => validTrade prices signals i)).length

/-- `win_trades = (Strategy_Return[valid_trades] > 0).sum()`. -/
def winTrades (prices : List ℚ) (signals : ℕ → Int) : ℕ :=
  ((List.range prices.length).filter (fun i =>
    validTrade prices signals i &&
      match strategyReturn prices signals i with
      | some r => decide (0 < r)
      | none => false)).length

/-- `win_ratio = (win_trades / total_trades) * 100 if total_trades > 0 else 0`
(letsSee.py line 356). -/
def winRate (prices : List ℚ) (signals : ℕ → Int) : ℚ :=
  if 0 < totalTrades prices signals then
    ((winTrades prices signals : ℚ) / (totalTrades prices signals : ℚ)) * 100
  else 0

/-- The performance block of letsSee.py lines 352-372, as a fallible
computation: `Close.iloc[0]` (and `portfolio_values[-1]`) raise on an empty
series, embedded as `none`.  On a nonempty series it returns
`(win_ratio, buy_and_hold_return, algo_outperformed)`, where the last field is
the strict comparison `final_portfolio_value > buy_and_hold_return` printed on
line 371. -/
def strategySummary (prices : List ℚ) (signals : ℕ → Int) (init : ℚ) :
    Option (ℚ × ℚ × Bool) :=
  match prices with
  | [] => none
  | p0 :: rest =>
    let bah := ((p0 :: rest).getLastD 0 / p0) * init
    some (winRate (p0 :: rest) signals, bah,
      decide (bah < finalPortfolioValue (p0 :: rest) signals init))

/-! ## stockPractice.py: the module-level portfolio loop -/

/-- One row of the stockPractice.py loop (lines 40-58).  `Holdings` is a
dollar amount (the invested value at purchase, not marked to market).  A Buy
signal invests `(prev_cash // adj_close) * adj_close` — a whole number of
shares via float floor division; a Sell signal redeems the holdings value into
cash; otherwise both columns carry forward.  State is `(cash, holdings)`. -/
def spStep (price : ℚ) (signal : Int) (st : ℚ × ℚ) : ℚ × ℚ :=
  if signal = 1 then
    (st.1 - (⌊st.1 / price⌋ : ℚ) * price, st.2 + (⌊st.1 / price⌋ : ℚ) * price)
  else if signal = -1 then (st.1 + st.2, 0)
  else st

/-- The `(Cash, Holdings)` columns of stockPractice.py at row `i`.  Row 0
keeps the initialised values `(initial_capital, 0)`; the loop computes row
`i ≥ 1` from row `i - 1` with row `i`'s price and signal. -/
def spStates (prices : List ℚ) (signals : ℕ → Int) (init : ℚ) : ℕ → ℚ × ℚ
  | 0 => (init, 0)
  | i + 1 => spStep (prices.getD (i + 1) 0) (signals (i + 1))
      (spStates prices signals init i)

/-- The `Total` column: `init` at row 0 (column initialisation, line 23), and
`Cash.iloc[i] + Holdings.iloc[i]` at every later row (line 58), produced by
the loop as a list. -/
def spTotals (prices : List ℚ) (signals : ℕ → Int) (init : ℚ) : List ℚ :=
  match prices with
  | [] => []
  | _ :: _ =>
    (List.range (prices.length - 1)).foldl
      (fun acc j =>
        let st := spStep (prices.getD (j + 1) 0) (signals (j + 1))
          (acc.1, acc.2.1)
        (st.1, st.2, acc.2.2 ++ [st.1 + st.2]))
      (init, 0, [init]) |>.2.2

/-! ## Helper lemmas -/

/-- Bars whose `Position` is neither `2` nor `-2` leave the testr.py ledger
untouched. -/
lemma tradeStep_noop (price : ℚ) (position : Option Int) (st : ℚ × ℚ)
    (h2 : position ≠ some 2) (hm2 : position ≠ some (-2)) :
    tradeStep price position st = st := by
  simp [tradeStep, h2, hm2]

/-- The loop of `simulate_trading` computes exactly the recursive ledger
`tradeStates` and records exactly the per-bar values `tradeValue`. -/
lemma simulate_trading_eq (prices : List ℚ) (positions : ℕ → Option Int)
    (init : ℚ) :
    simulate_trading prices positions init =
      ((tradeStates prices positions init prices.length).1,
       (tradeStates prices positions init prices.length).2,
       (List.range prices.length).map (tradeValue prices positions init)) := by
  unfold simulate_trading
  generalize prices.length = n
  induction n with
  | zero => rfl
  | succ n ih =>
    rw [List.range_succ, List.foldl_append, ih, List.map_append]
    rfl

/-- Reading a mapped range at an in-bounds index. -/
lemma map_range_getD (f : ℕ → ℚ) (n i : ℕ) (d : ℚ) (h : i < n) :
    ((List.range n).map f).getD i d = f i := by
  rw [List.getD_eq_getElem?_getD, List.getElem?_map, List.getElem?_range h]
  rfl

/-- The stockPractice.py loop over rows `1, …, n` computes exactly the
recursive `spStates` ledger and records `Cash + Holdings` per row, after the
initial row's `init`. -/
lemma spTotals_aux (prices : List ℚ) (signals : ℕ → Int) (init : ℚ) (n : ℕ) :
    (List.range n).foldl
      (fun acc j =>
        let st := spStep (prices.getD (j + 1) 0) (signals (j + 1))
          (acc.1, acc.2.1)
        (st.1, st.2, acc.2.2 ++ [st.1 + st.2]))
      ((init, 0, [init]) : ℚ × ℚ × List ℚ) =
      ((spStates prices signals init n).1, (spStates prices signals init n).2,
        init :: (List.range n).map (fun j =>
          (spStates prices signals init (j + 1)).1 +
            (spStates prices signals init (j + 1)).2)) := by
  induction n with
  | zero => rfl
  | succ n ih =>
    rw [List.range_succ, List.foldl_append, ih, List.map_append]
    rfl

/-- The `Total` column as a list: `init` at row 0, then the ledger sums. -/
lemma spTotals_eq (prices : List ℚ) (signals : ℕ → Int) (init : ℚ)
    (h : prices ≠ []) :
    spTotals prices signals init =
      init :: (List.range (prices.length - 1)).map (fun j =>
        (spStates prices signals init (j + 1)).1 +
          (spStates prices signals init (j + 1)).2) := by
  cases prices with
  | nil => exact absurd rfl h
  | cons p0 rest =>
    simp only [spTotals]
    rw [spTotals_aux]

/-! ## Claim theorems -/

/-- C1: in testr.py's `simulate_trading`, a Buy position-change event
(`Position == 2`) occurring while the portfolio is flat (`stock = 0`) converts
all cash to shares at the current bar's price (`stock = cash / price`,
`cash = 0`, hence fully invested); a Sell position-change event
(`Position == -2`) occurring while fully invested (`cash = 0`) converts all
shares to cash at the current bar's price (`cash = stock * price`,
`stock = 0`, hence flat again). -/
theorem C1_all_in_all_out_transitions (prices : List ℚ)
    (positions : ℕ → Option Int) (init : ℚ) (i : ℕ) :
    (positions i = some 2 → (tradeStates prices positions init i).2 = 0 →
      tradeStates prices positions init (i + 1) =
        (0, (tradeStates prices positions init i).1 / prices.getD i 0)) ∧
    (positions i = some (-2) → (tradeStates prices positions init i).1 = 0 →
      tradeStates prices positions init (i + 1) =
        ((tradeStates prices positions init i).2 * prices.getD i 0, 0)) := by
  constructor
  · intro h _
    simp [tradeStates, tradeStep, h]
  · intro h _
    simp [tradeStates, tradeStep, h]

/-- Witness for C1 on the concrete series `[10, 10]` with a Buy event at bar 0
and a Sell event at bar 1, starting from 5000 in cash. -/
theorem C1_all_in_all_out_transitions_witness :
    tradeStates [10, 10] (fun i => if i = 0 then some 2 else some (-2))
      5000 1 = (0, 500) ∧
    tradeStates [10, 10] (fun i => if i = 0 then some 2 else some (-2))
      5000 2 = (5000, 0) := by
  have hb := (C1_all_in_all_out_transitions [10, 10]
    (fun i => if i = 0 then some 2 else some (-2)) 5000 0).1 rfl rfl
  have hb500 : tradeStates [10, 10]
      (fun i => if i = 0 then some 2 else some (-2)) 5000 1 = (0, 500) := by
    rw [hb]; norm_num [tradeStates]
  refine ⟨hb500, ?_⟩
  have hs := (C1_all_in_all_out_transitions [10, 10]
    (fun i => if i = 0 then some 2 else some (-2)) 5000 1).2 rfl
    (by rw [hb500])
  rw [hs, hb500]
  norm_num

/-- C2: at every bar of the replay the recorded total portfolio value equals
the ledger's cash plus its position valued at that bar: in testr.py's
`simulate_trading` the appended `portfolio_value` equals
`cash + stock * price[i]`, and in stockPractice.py the `Total` column equals
`Cash + Holdings` (there `Holdings` is the dollar value the ledger carries for
the position) — no value leaks and none is double counted between the ledger
and the recorded trajectory. -/
theorem C2_recorded_value_invariant (prices : List ℚ)
    (positions : ℕ → Option Int) (signals : ℕ → Int) (init : ℚ) (i : ℕ)
    (h : i < prices.length) :
    (simulate_trading prices positions init).2.2.getD i 0 =
      (tradeStates prices positions init (i + 1)).1 +
        (tradeStates prices positions init (i + 1)).2 * prices.getD i 0 ∧
    (spTotals prices signals init).getD i 0 =
      (spStates prices signals init i).1 +
        (spStates prices signals init i).2 := by
  constructor
  · rw [simulate_trading_eq]
    exact map_range_getD _ _ _ _ h
  · have hne : prices ≠ [] := by
      intro hnil
      rw [hnil] at h
      simp at h
    rw [spTotals_eq prices signals init hne]
    match i with
    | 0 => simp [spStates]
    | j + 1 =>
      have hj : j < prices.length - 1 := by omega
      show ((List.range (prices.length - 1)).map _).getD j 0 = _
      exact map_range_getD _ _ _ _ hj

/-- Witness for C2 on the one-bar series `[10]` with no events, starting from
5000: the recorded value is 5000 in both simulators. -/
theorem C2_recorded_value_invariant_witness :
    (simulate_trading [10] (fun _ => none) 5000).2.2.getD 0 0 = 5000 ∧
    (spTotals [10] (fun _ => 0) 5000).getD 0 0 = 5000 := by
  have h := C2_recorded_value_invariant [10] (fun _ => none) (fun _ => 0)
    5000 0 (by simp)
  constructor
  · rw [h.1]; simp [tradeStates, tradeStep]
  · rw [h.2]; simp [spStates]

/-- C3 counterexample: in the letsSee.py trading loop a persistent Buy signal
re-buys.  On the series `[10, 10]` with the signal constantly `1`, bar 1
carries the same signal as bar 0 (no position change), yet the loop trades
again: cash drops from 4500 after bar 0 to 4050 after bar 1. -/
theorem C3_persistent_buy_rebuys :
    (fun _ : ℕ => (1 : Int)) 1 = (fun _ : ℕ => (1 : Int)) 0 ∧
    (maStates [10, 10] (fun _ => 1) 5000 1).1 = 4500 ∧
    (maStates [10, 10] (fun _ => 1) 5000 2).1 = 4050 ∧
    (maStates [10, 10] (fun _ => 1) 5000 2).1 ≠
      (maStates [10, 10] (fun _ => 1) 5000 1).1 := by
  refine ⟨rfl, ?_, ?_, ?_⟩ <;> norm_num [maStates, maStep]

/-- C3 amended: in testr.py's `simulate_trading` (the position-change-driven
simulator), every bar whose `Position` is neither `2` nor `-2` carries cash
and shares forward unchanged; in particular a persistent Buy signal, whose
`Position` is `0` on every bar after the flip, does not re-buy there.  The
letsSee.py loop, by contrast, acts on the raw signal and re-buys 10% of cash
on every bar of a persistent Buy signal. -/
theorem C3_no_event_is_noop (prices : List ℚ) (positions : ℕ → Option Int)
    (init : ℚ) (i : ℕ) (h2 : positions i ≠ some 2)
    (hm2 : positions i ≠ some (-2)) :
    tradeStates prices positions init (i + 1) =
      tradeStates prices positions init i := by
  show tradeStep _ _ _ = _
  rw [tradeStep_noop _ _ _ h2 hm2]

/-- Witness for the amended C3: a `Position` of `0` at bar 0 leaves the
initial ledger `(5000, 0)` in place. -/
theorem C3_no_event_is_noop_witness :
    tradeStates [10, 10] (fun _ => some 0) 5000 1 = (5000, 0) := by
  rw [C3_no_event_is_noop [10, 10] (fun _ => some 0) 5000 0
    (by decide) (by decide)]
  rfl

/-- C4: in letsSee.py's metrics, for every in-range bar `i ≥ 1` with a nonzero
previous price, `Daily_Return[i] = price[i] / price[i-1] - 1` and
`Strategy_Return[i]` is the prior bar's signal (the one in effect at the start
of bar `i`, not bar `i`'s own) times that daily return — no look-ahead. -/
theorem C4_returns_use_prior_signal (prices : List ℚ) (signals : ℕ → Int)
    (i : ℕ) (h1 : 1 ≤ i) (h2 : i < prices.length)
    (h0 : prices.getD (i - 1) 0 ≠ 0) :
    dailyReturn prices i =
      some (prices.getD i 0 / prices.getD (i - 1) 0 - 1) ∧
    strategyReturn prices signals i =
      some ((signals (i - 1) : ℚ) *
        (prices.getD i 0 / prices.getD (i - 1) 0 - 1)) := by
  have hd : dailyReturn prices i =
      some (prices.getD i 0 / prices.getD (i - 1) 0 - 1) := by
    rw [dailyReturn, if_pos ⟨h1, h2⟩, sub_div, div_self h0]
  refine ⟨hd, ?_⟩
  rw [strategyReturn, if_neg (by omega), hd]
  rfl

/-- Witness for C4 on the series `[10, 20]` with the signal constantly `1` at
bar 1: the daily return is 1 and the strategy return is `1 * 1`. -/
theorem C4_returns_use_prior_signal_witness :
    dailyReturn [10, 20] 1 = some 1 ∧
    strategyReturn [10, 20] (fun _ => 1) 1 = some 1 := by
  have h := C4_returns_use_prior_signal [10, 20] (fun _ => 1) 1
    (by norm_num) (by norm_num) (by norm_num)
  refine ⟨?_, ?_⟩
  · rw [h.1]; norm_num
  · rw [h.2]; norm_num

/-- C5: equality of the fast and slow indicator values at a bar resolves the
signal to Sell (`-1`) in both baseline crossover rules: the masked assignment
of letsSee.py (the `<=` mask wins the tie) and the
`np.where(SMA20 > SMA50, 1, -1)` column of testr.py (a tie fails the strict
`>`). -/
theorem C5_tie_resolves_to_sell (a : ℚ) (prices : List ℚ) (i : ℕ) (b : ℚ)
    (h20 : sma prices 20 i = some b) (h50 : sma prices 50 i = some b) :
    crossSignal (some a) (some a) = -1 ∧ testrSignal prices i = -1 := by
  constructor
  · simp [crossSignal]
  · have hi : ¬ i < 20 := by
      rw [sma] at h50
      by_contra hlt
      rw [if_neg (by omega)] at h50
      exact Option.noConfusion h50
    rw [testrSignal, if_neg hi, h20, h50, npWhereGtSignal]
    simp

/-- Witness for C5 on a constant series of fifty 10s at bar 49, where both
moving averages equal 10. -/
theorem C5_tie_resolves_to_sell_witness :
    crossSignal (some 3) (some 3) = -1 ∧
    testrSignal (List.replicate 50 10) 49 = -1 := by
  have hs : ∀ w : ℕ, 0 < w → w ≤ 50 →
      sma (List.replicate 50 (10 : ℚ)) w 49 = some 10 := by
    intro w hw hle
    rw [sma, if_pos (by simp; omega)]
    congr 1
    have hmap : (List.range w).map
        (fun j => (List.replicate 50 (10 : ℚ)).getD (49 - j) 0) =
        (List.range w).map (fun _ => (10 : ℚ)) := by
      apply List.map_congr_left
      intro j hj
      have hjw : j < w := List.mem_range.mp hj
      rw [List.getD_eq_getElem?_getD, List.getElem?_replicate,
        if_pos (by omega)]
      rfl
    rw [hmap, List.map_const', List.length_range, List.sum_replicate,
      nsmul_eq_mul, mul_comm, mul_div_assoc, div_self (by positivity),
      mul_one]
  have h := C5_tie_resolves_to_sell 3 (List.replicate 50 10) 49 10
    (hs 20 (by norm_num) (by norm_num)) (hs 50 (by norm_num) (by norm_num))
  exact h

/-- Every cell of the letsSee.py signal assignment is one of `1`, `0`, `-1`. -/
lemma crossSignal_cases (f s : Option ℚ) :
    crossSignal f s = 1 ∨ crossSignal f s = 0 ∨ crossSignal f s = -1 := by
  match f, s with
  | some a, some b =>
    by_cases hab : b < a
    · left; simp [crossSignal, hab]
    · right; right; simp [crossSignal, hab]
  | some _, none => right; left; rfl
  | none, some _ => right; left; rfl
  | none, none => right; left; rfl

/-- Every member of the zipped signal column is one of `1`, `0`, `-1`. -/
lemma mem_crossSignals (fast slow : List (Option ℚ)) :
    ∀ x ∈ crossSignals fast slow, x = 1 ∨ x = 0 ∨ x = -1 := by
  induction fast generalizing slow with
  | nil => intro x hx; simp [crossSignals] at hx
  | cons f fs ih =>
    intro x hx
    match slow with
    | [] => simp [crossSignals] at hx
    | s :: ss =>
      rw [show crossSignals (f :: fs) (s :: ss) =
        crossSignal f s :: crossSignals fs ss from rfl, List.mem_cons] at hx
      rcases hx with rfl | hx
      · exact crossSignal_cases f s
      · exact ih ss x hx

/-- Reading the zipped signal column at an in-bounds index reads the two
indicator columns there. -/
lemma crossSignals_getD (fast slow : List (Option ℚ)) (i : ℕ)
    (hf : i < fast.length) (hs : i < slow.length) :
    (crossSignals fast slow).getD i 0 =
      crossSignal (fast.getD i none) (slow.getD i none) := by
  induction fast generalizing slow i with
  | nil => simp at hf
  | cons f fs ih =>
    match slow, i with
    | s :: ss, 0 => rfl
    | s :: ss, j + 1 =>
      show (crossSignals fs ss).getD j 0 = _
      exact ih ss j (by simpa using hf) (by simpa using hs)

/-- An undefined slow indicator makes the `np.where` cell `-1`. -/
lemma npWhereGtSignal_none_right (f : Option ℚ) :
    npWhereGtSignal f none = -1 := by
  match f with
  | some _ => rfl
  | none => rfl

/-- A cell of `np.where(SMA20 > SMA50, 1, -1)` is always `1` or `-1`. -/
lemma npWhereGtSignal_cases (f s : Option ℚ) :
    npWhereGtSignal f s = 1 ∨ npWhereGtSignal f s = -1 := by
  match f, s with
  | some a, some b =>
    by_cases hab : b < a
    · left; simp [npWhereGtSignal, hab]
    · right; simp [npWhereGtSignal, hab]
  | some _, none => right; rfl
  | none, some _ => right; rfl
  | none, none => right; rfl

/-- C6: the letsSee.py signal column has exactly the length of the two aligned
indicator columns, every entry lies in the set coding {Buy, Hold, Sell} as
{1, 0, -1}, the signal is strictly binary (`1` or `-1`) at every bar where
both indicators are defined, and `0` (Hold) occurs only at bars where at least
one indicator value is undefined; the testr.py `Signal` column likewise is
drawn from {1, 0, -1}, is strictly binary wherever both moving averages are
defined, and holds `0` only on warm-up rows whose SMA50 is undefined. -/
theorem C6_signal_shape (fast slow : List (Option ℚ))
    (h : fast.length = slow.length) :
    (crossSignals fast slow).length = fast.length ∧
    (∀ x ∈ crossSignals fast slow, x = 1 ∨ x = 0 ∨ x = -1) ∧
    (∀ i a b, fast.getD i none = some a → slow.getD i none = some b →
      (crossSignals fast slow).getD i 0 = 1 ∨
        (crossSignals fast slow).getD i 0 = -1) ∧
    (∀ i, i < fast.length → (crossSignals fast slow).getD i 0 = 0 →
      fast.getD i none = none ∨ slow.getD i none = none) ∧
    (∀ (prices : List ℚ) (i : ℕ),
      (testrSignal prices i = 1 ∨ testrSignal prices i = 0 ∨
        testrSignal prices i = -1) ∧
      (∀ a b, sma prices 20 i = some a → sma prices 50 i = some b →
        testrSignal prices i = 1 ∨ testrSignal prices i = -1) ∧
      (testrSignal prices i = 0 → sma prices 50 i = none)) := by
  refine ⟨?_, ?_, ?_, ?_, ?_⟩
  · rw [crossSignals, List.length_zipWith, h, min_self]
  · exact mem_crossSignals fast slow
  · intro i a b hfa hsb
    have hf : i < fast.length := by
      by_contra hge
      rw [List.getD_eq_default _ _ (by omega)] at hfa
      exact Option.noConfusion hfa
    rw [crossSignals_getD fast slow i hf (h ▸ hf), hfa, hsb]
    by_cases hab : b < a
    · left; simp [crossSignal, hab]
    · right; simp [crossSignal, hab]
  · intro i hf h0
    rw [crossSignals_getD fast slow i hf (h ▸ hf)] at h0
    match hfa : fast.getD i none, hsb : slow.getD i none with
    | some a, some b =>
      rw [hfa, hsb] at h0
      by_cases hab : b < a
      · simp [crossSignal, hab] at h0
      · simp [crossSignal, hab] at h0
    | some _, none => right; rfl
    | none, _ => left; rfl
  · intro prices i
    refine ⟨?_, ?_, ?_⟩
    · by_cases hi : i < 20
      · right; left; rw [testrSignal, if_pos hi]
      · rw [testrSignal, if_neg hi]
        rcases npWhereGtSignal_cases (sma prices 20 i) (sma prices 50 i) with
          hc | hc
        · left; exact hc
        · right; right; exact hc
    · intro a b _ h50
      have hi : ¬ i < 20 := by
        intro hlt
        rw [sma, if_neg (by omega)] at h50
        exact Option.noConfusion h50
      rw [testrSignal, if_neg hi]
      exact npWhereGtSignal_cases _ _
    · intro h0
      by_cases hi : i < 20
      · rw [sma, if_neg (by omega)]
      · rw [testrSignal, if_neg hi] at h0
        rcases npWhereGtSignal_cases (sma prices 20 i) (sma prices 50 i) with
          hc | hc <;> rw [h0] at hc <;> exact absurd hc (by decide)

/-- Witness for C6 on a pair of two-bar indicator columns with a warm-up NaN
at bar 0: the signal is Hold at the undefined bar and Buy at the defined one. -/
theorem C6_signal_shape_witness :
    (crossSignals [none, some 3] [none, some 2]).length = 2 ∧
    (crossSignals [none, some 3] [none, some 2]).getD 1 0 = 1 ∧
    (crossSignals [none, some 3] [none, some 2]).getD 0 0 = 0 ∧
    sma [1, 2, 3] 50 0 = none := by
  have h := C6_signal_shape [none, some 3] [none, some 2] rfl
  refine ⟨h.1, ?_, by decide, (h.2.2.2.2 [1, 2, 3] 0).2.2 (by decide)⟩
  have hb := h.2.2.1 1 3 2 rfl rfl
  rcases hb with hb | hb
  · exact hb
  · exact absurd hb (by decide)

/-- Rows selected by the letsSee.py `valid_trades` mask are exactly those with
an in-range index `i ≥ 1` and a nonzero prior-bar signal. -/
lemma validTrade_iff (prices : List ℚ) (signals : ℕ → Int) (i : ℕ) :
    validTrade prices signals i = true ↔
      1 ≤ i ∧ i < prices.length ∧ signals (i - 1) ≠ 0 := by
  match i with
  | 0 => simp [validTrade, strategyReturn]
  | j + 1 =>
    by_cases hlen : j + 1 < prices.length
    · simp [validTrade, strategyReturn, dailyReturn, hlen]
    · simp [validTrade, strategyReturn, dailyReturn, hlen]

/-- C7: letsSee.py's win ratio equals 100 times the number of bars with a
positive strategy return among bars with a nonzero, defined prior signal,
divided by the number of such bars; and whenever no bar has a nonzero, defined
prior signal the ratio is exactly 0 rather than undefined. -/
theorem C7_win_rate_formula (prices : List ℚ) (signals : ℕ → Int) :
    (∀ i, validTrade prices signals i = true ↔
      1 ≤ i ∧ i < prices.length ∧ signals (i - 1) ≠ 0) ∧
    (0 < totalTrades prices signals →
      winRate prices signals =
        100 * (winTrades prices signals : ℚ) /
          (totalTrades prices signals : ℚ)) ∧
    ((∀ i, ¬(1 ≤ i ∧ i < prices.length ∧ signals (i - 1) ≠ 0)) →
      winRate prices signals = 0) := by
  refine ⟨validTrade_iff prices signals, ?_, ?_⟩
  · intro ht
    rw [winRate, if_pos ht, mul_comm, mul_div_assoc]
  · intro hnone
    have ht : totalTrades prices signals = 0 := by
      rw [totalTrades, List.length_eq_zero]
      rw [List.filter_eq_nil_iff]
      intro i _
      rw [Bool.not_eq_true]
      rw [← Bool.not_eq_true, validTrade_iff]
      exact hnone i
    rw [winRate, if_neg (by omega)]

/-- Witness for C7 on the series `[10, 20]` with the signal constantly `1`:
bar 1 is a valid trade, and the win ratio is 100. -/
theorem C7_win_rate_formula_witness :
    validTrade [10, 20] (fun _ => 1) 1 = true ∧
    winRate [10, 20] (fun _ => 1) = 100 := by
  have h := C7_win_rate_formula [10, 20] (fun _ => 1)
  have hv : validTrade [10, 20] (fun _ => 1) 1 = true :=
    (h.1 1).mpr ⟨le_refl 1, by norm_num, by norm_num⟩
  have htot : totalTrades [10, 20] (fun _ => 1) = 1 := by decide
  have hwin : winTrades [10, 20] (fun _ => 1) = 1 := by
    norm_num [winTrades, validTrade, strategyReturn, dailyReturn,
      List.filter, List.range_succ]
  refine ⟨hv, ?_⟩
  rw [h.2.1 (by omega), htot, hwin]
  norm_num

/-- C8 counterexample: a 1-point price series does not fail.  The performance
block of letsSee.py runs to completion on the single-point series `[10]` — no
EmptySeries guard exists anywhere in the code, so the claimed failure on
series with fewer than 2 points does not occur. -/
theorem C8_one_point_succeeds :
    (strategySummary [10] (fun _ => 0) 5000).isSome = true := rfl

/-- C8 amended: the letsSee.py performance block fails (raises on
`Close.iloc[0]`) only for an empty price series; every nonempty series —
including a 1-point series — runs to completion, and a 2-point series
produces exactly one defined `dailyReturn` entry. -/
theorem C8_empty_vs_short_series (prices : List ℚ) (signals : ℕ → Int)
    (init : ℚ) :
    (prices = [] → strategySummary prices signals init = none) ∧
    (prices ≠ [] → (strategySummary prices signals init).isSome = true) ∧
    (prices.length = 2 → definedDailyReturns prices = 1) := by
  refine ⟨?_, ?_, ?_⟩
  · intro h
    rw [h]
    rfl
  · intro h
    match prices, h with
    | p :: rest, _ => rfl
  · intro hlen
    obtain ⟨a, b, rfl⟩ := List.length_eq_two.mp hlen
    have hr : List.range ([a, b].length) = [0, 1] := rfl
    rw [definedDailyReturns, hr]
    norm_num [List.filter, dailyReturn]

/-- Witness for the amended C8: the empty series fails, the 1-point series
`[10]` succeeds, and the 2-point series `[10, 20]` has exactly one defined
daily return. -/
theorem C8_empty_vs_short_series_witness :
    strategySummary [] (fun _ => 0) 5000 = none ∧
    (strategySummary [7] (fun _ => 0) 5000).isSome = true ∧
    definedDailyReturns [10, 20] = 1 := by
  refine ⟨(C8_empty_vs_short_series [] (fun _ => 0) 5000).1 rfl,
    (C8_empty_vs_short_series [7] (fun _ => 0) 5000).2.1 (by simp),
    (C8_empty_vs_short_series [10, 20] (fun _ => 0) 5000).2.2 rfl⟩

/-- C9: letsSee.py's summary computes
`buy_and_hold_return = (final_price / initial_price) * initial_investment`
and reports that the algorithm outperformed exactly when the final portfolio
value is strictly greater than the buy-and-hold value; a tie reports not
outperforming. -/
theorem C9_buy_and_hold_comparison (p0 : ℚ) (rest : List ℚ)
    (signals : ℕ → Int) (init : ℚ) :
    strategySummary (p0 :: rest) signals init =
      some (winRate (p0 :: rest) signals,
        ((p0 :: rest).getLastD 0 / p0) * init,
        decide (((p0 :: rest).getLastD 0 / p0) * init <
          finalPortfolioValue (p0 :: rest) signals init)) ∧
    (decide (((p0 :: rest).getLastD 0 / p0) * init <
        finalPortfolioValue (p0 :: rest) signals init) = true ↔
      finalPortfolioValue (p0 :: rest) signals init >
        ((p0 :: rest).getLastD 0 / p0) * init) ∧
    (finalPortfolioValue (p0 :: rest) signals init =
        ((p0 :: rest).getLastD 0 / p0) * init →
      decide (((p0 :: rest).getLastD 0 / p0) * init <
        finalPortfolioValue (p0 :: rest) signals init) = false) := by
  refine ⟨rfl, decide_eq_true_iff, ?_⟩
  intro htie
  rw [htie]
  simp

/-- Witness for C9 on the flat series `[10, 10]` with no signals: buy-and-hold
returns the initial investment, the strategy ties it, and the tie reports not
outperforming. -/
theorem C9_buy_and_hold_comparison_witness :
    strategySummary [10, 10] (fun _ => 0) 5000 = some (0, 5000, false) := by
  have h := C9_buy_and_hold_comparison 10 [10] (fun _ => 0) 5000
  have hfpv : finalPortfolioValue [10, 10] (fun _ => 0) 5000 = 5000 := by
    norm_num [finalPortfolioValue, maValue, maStates, maStep]
  have hbah : (([10, 10] : List ℚ).getLastD 0 / 10) * 5000 = 5000 := by
    norm_num
  have ho := h.2.2 (by rw [hfpv, hbah])
  rw [h.1, ho, hbah]
  have hw : winRate [10, 10] (fun _ => 0) = 0 := by
    rw [winRate, if_neg]
    rw [show totalTrades [10, 10] (fun _ => (0 : Int)) = 0 from by decide]
    omega
  rw [hw]

/-- If the testr.py signal column never steps from `-1` straight to `1`, it
never reaches `1` at all: the first 20 rows are `0`, a `1` needs a defined
SMA50 (row at least 49), and the row before such a row is already past warm-up
so it carries `1` (contradicting minimality) or `-1` (contradicting the
hypothesis). -/
lemma testrSignal_ne_one (prices : List ℚ)
    (h : ∀ j, 1 ≤ j → j < prices.length →
      ¬(testrSignal prices (j - 1) = -1 ∧ testrSignal prices j = 1)) :
    ∀ i, testrSignal prices i ≠ 1 := by
  intro i
  induction i using Nat.strong_induction_on with
  | _ i ih =>
    intro h1
    by_cases hi20 : i < 20
    · rw [testrSignal, if_pos hi20] at h1
      exact absurd h1 (by decide)
    · rw [testrSignal, if_neg hi20] at h1
      match h50 : sma prices 50 i with
      | none =>
        rw [h50, npWhereGtSignal_none_right] at h1
        exact absurd h1 (by decide)
      | some b =>
        have hcond : 50 ≤ i + 1 ∧ i < prices.length := by
          by_contra hc
          rw [sma, if_neg hc] at h50
          exact Option.noConfusion h50
        have hi49 : 49 ≤ i := by omega
        have hprev : testrSignal prices (i - 1) = 1 ∨
            testrSignal prices (i - 1) = -1 := by
          rw [testrSignal, if_neg (by omega)]
          exact npWhereGtSignal_cases _ _
        rcases hprev with hp | hp
        · exact ih (i - 1) (by omega) hp
        · refine h i (by omega) hcond.2 ⟨hp, ?_⟩
          rw [testrSignal, if_neg hi20]
          exact h1

/-- Under the same hypothesis every testr.py signal value is `0` or `-1`. -/
lemma testrSignal_mem_zero_neg (prices : List ℚ)
    (h : ∀ j, 1 ≤ j → j < prices.length →
      ¬(testrSignal prices (j - 1) = -1 ∧ testrSignal prices j = 1)) :
    ∀ i, testrSignal prices i = 0 ∨ testrSignal prices i = -1 := by
  intro i
  by_cases hi20 : i < 20
  · left; rw [testrSignal, if_pos hi20]
  · right
    have hne := testrSignal_ne_one prices h i
    rw [testrSignal, if_neg hi20] at hne ⊢
    rcases npWhereGtSignal_cases (sma prices 20 i) (sma prices 50 i) with
      hc | hc
    · exact absurd hc hne
    · exact hc

/-- C10: in testr.py's dashboard simulator a trade fires only on a full
signal flip (`Position` of `2` or `-2`), so when the signal column never
steps from `-1` to `1` — in particular the warm-up exit `0 → -1` and any later
move contributes a difference of at most 1 in absolute value — no buy or sell
condition ever fires: the ledger stays at `(initial_investment, 0)` before
every bar and every recorded portfolio value equals the initial investment. -/
theorem C10_no_flip_stays_in_cash (prices : List ℚ) (init : ℚ)
    (h : ∀ j, 1 ≤ j → j < prices.length →
      ¬(testrSignal prices (j - 1) = -1 ∧ testrSignal prices j = 1)) :
    (∀ i, testrPosition prices i ≠ some 2 ∧
      testrPosition prices i ≠ some (-2)) ∧
    (∀ i, tradeStates prices (testrPosition prices) init i = (init, 0)) ∧
    (∀ i, i < prices.length →
      (simulate_trading prices (testrPosition prices) init).2.2.getD i 0 =
        init) := by
  have hpos : ∀ i, testrPosition prices i ≠ some 2 ∧
      testrPosition prices i ≠ some (-2) := by
    intro i
    match i with
    | 0 => exact ⟨by rw [testrPosition]; simp, by rw [testrPosition]; simp⟩
    | j + 1 =>
      rw [testrPosition, if_neg (by omega)]
      rcases testrSignal_mem_zero_neg prices h (j + 1) with hc | hc <;>
        rcases testrSignal_mem_zero_neg prices h (j + 1 - 1) with hp | hp <;>
          rw [hc, hp] <;> exact ⟨by decide, by decide⟩
  have hstates : ∀ i,
      tradeStates prices (testrPosition prices) init i = (init, 0) := by
    intro i
    induction i with
    | zero => rfl
    | succ n ihn =>
      show tradeStep _ _ _ = _
      rw [tradeStep_noop _ _ _ (hpos n).1 (hpos n).2, ihn]
  refine ⟨hpos, hstates, ?_⟩
  intro i hi
  rw [simulate_trading_eq, map_range_getD _ _ _ _ hi, tradeValue,
    hstates (i + 1)]
  norm_num

/-- Witness for C10 on the short series `[1, 2, 3]` (signals all in warm-up):
the ledger after all bars is `(5000, 0)` and the last recorded value is
5000. -/
theorem C10_no_flip_stays_in_cash_witness :
    tradeStates [1, 2, 3] (testrPosition [1, 2, 3]) 5000 3 = (5000, 0) ∧
    (simulate_trading [1, 2, 3] (testrPosition [1, 2, 3]) 5000).2.2.getD 2 0 =
      5000 := by
  have hyp : ∀ j, 1 ≤ j → j < ([1, 2, 3] : List ℚ).length →
      ¬(testrSignal [1, 2, 3] (j - 1) = -1 ∧ testrSignal [1, 2, 3] j = 1) := by
    intro j h1 h2
    have h3 : j < 3 := by simpa using h2
    interval_cases j <;> decide
  have h := C10_no_flip_stays_in_cash [1, 2, 3] 5000 hyp
  exact ⟨h.2.1 3, h.2.2 2 (by norm_num)⟩

end StockAnalysis
